import Mathlib

/-!
Verification of the agenda-tree / segment-attribution subsystem of a
meeting-management backend.

The development shallowly embeds the relevant Python code:

* `app/services/agenda.py` (AgendaService): agenda creation and the structural
  move operation on the self-referential agenda tree, with descendant walks
  done by repeated child lookups.  Database state is modelled as an explicit
  list of agenda rows plus a fresh-id counter; every service call is a pure
  function from state to `Except`-wrapped state.
* `app/services/segment_analyzer.py` (SegmentAnalyzer): the start-based
  segment-to-agenda mapper, the mismatch analysis over an external LLM oracle
  (the oracle outcome is passed in explicitly, already at the level of the
  value that `json.loads` would produce), and `move_segment`.
* `app/routers/results.py` and `workers/tasks/llm.py`: the two hierarchical
  order renderers.

Machine integers are modelled as `Int`/`Nat`; Python floats as `ℚ`; JSON
values coming back from the oracle as an explicit `Json` inductive together
with the Python truthiness / comparison semantics the code relies on.
Recursions whose termination the Python code leaves implicit (descendant
walks) take an explicit fuel argument, instantiated with the row count at
every call site, matching the source call structure.
-/

/-- Status enum of an agenda row (`app/models/enums.py`). -/
inductive AgendaStatus where
  | pending
  | in_progress
  | completed
deriving DecidableEq, Repr

/-- Entry of the `time_segments` JSONB column: a dict read with
`ts.get("start", 0)` and `ts.get("end")`, so the start is optional with
default `0` and a missing or null end is `none` (open-ended). -/
structure TimeSeg where
  start : Option ℚ
  endv : Option ℚ
deriving DecidableEq, Repr

/-- Agenda row (`app/models/agenda.py` plus the `time_segments` migration).
The timestamp of `deleted_at` is abstracted to an `Int`; only presence
matters to the code. -/
structure Agenda where
  id : Int
  meeting_id : Int
  parent_id : Option Int
  level : Int
  order_num : Int
  title : String
  description : Option String
  status : AgendaStatus
  started_at_seconds : Option Int
  time_segments : Option (List TimeSeg)
  deleted_at : Option Int
deriving DecidableEq, Repr

/-- Persistent state seen by `AgendaService`: the non-deleted meeting ids,
the agenda rows, and the autoincrement counter for fresh agenda ids. -/
structure AgendaState where
  meetings : List Int
  agendas : List Agenda
  nextId : Int
deriving DecidableEq, Repr

/-- Lookup of `get_agenda_or_raise`: first agenda row with the given id whose
`deleted_at` is null (`agenda.py` get_agenda_or_raise). -/
def get_agenda (s : AgendaState) (agenda_id : Int) : Option Agenda :=
  s.agendas.find? (fun a => a.id == agenda_id && a.deleted_at.isNone)

/-- Next `order_num` among active siblings:
`coalesce(max(order_num), -1) + 1`, then `scalar() or 0` which is the
identity on the computed value (`agenda.py` get_next_order_num). -/
def get_next_order_num (s : AgendaState) (meeting_id : Int)
    (parent_id : Option Int) : Int :=
  let sibs := s.agendas.filter (fun a =>
    a.meeting_id == meeting_id && a.deleted_at.isNone && a.parent_id == parent_id)
  (sibs.foldl (fun m a => max m a.order_num) (-1)) + 1

/-- Level for a child of the given parent: 0 for a root, otherwise
`parent.level + 1`, failing when the parent is absent or soft-deleted
(`agenda.py` get_parent_level). -/
def get_parent_level (s : AgendaState) (parent_id : Option Int) :
    Except String Int :=
  match parent_id with
  | none => .ok 0
  | some pid =>
    match get_agenda s pid with
    | none => .error ("Agenda with id " ++ toString pid ++ " not found")
    | some parent => .ok (parent.level + 1)

/-- Fields of `AgendaCreate` (`app/schemas/agenda.py`). -/
structure AgendaCreate where
  title : String
  description : Option String
  parent_id : Option Int
deriving DecidableEq, Repr

/-- Embedding of `AgendaService.create_agenda`: validates the meeting and the
optional parent (existence, same meeting), computes `order_num` and `level`,
and appends the new row.  Returns the new state and the created id. -/
def create_agenda (s : AgendaState) (meeting_id : Int) (data : AgendaCreate) :
    Except String (AgendaState × Int) := do
  if !(s.meetings.contains meeting_id) then
    throw ("Meeting with id " ++ toString meeting_id ++ " not found")
  match data.parent_id with
  | none => pure ()
  | some pid =>
    match get_agenda s pid with
    | none => throw ("Agenda with id " ++ toString pid ++ " not found")
    | some parent =>
      if parent.meeting_id ≠ meeting_id then
        throw "Parent agenda must belong to the same meeting"
  let order_num := get_next_order_num s meeting_id data.parent_id
  let level ← get_parent_level s data.parent_id
  let row : Agenda :=
    { id := s.nextId, meeting_id := meeting_id, parent_id := data.parent_id,
      level := level, order_num := order_num, title := data.title,
      description := data.description, status := .pending,
      started_at_seconds := none, time_segments := none, deleted_at := none }
  pure ({ s with agendas := s.agendas ++ [row], nextId := s.nextId + 1 }, s.nextId)

/-- Embedding of `AgendaService._is_descendant`: is `d` a descendant of `a`,
computed by walking child rows (`select id where parent_id == a`, soft-deleted
rows included, as in the source).  The Python recursion has no explicit bound;
callers pass `fuel := s.agendas.length`, which suffices in acyclic states. -/
def is_descendant (fuel : Nat) (s : AgendaState) (d a : Int) : Bool :=
  match fuel with
  | 0 => false
  | fuel + 1 =>
    let child_ids := (s.agendas.filter (fun x => x.parent_id == some a)).map (·.id)
    child_ids.contains d || child_ids.any (fun c => is_descendant fuel s d c)

/-- Embedding of `AgendaService._update_descendant_levels`: for each child row
of `pid` (soft-deleted included), add `diff` to its level and recurse into its
subtree, in the order the child rows occur. -/
def update_descendant_levels (fuel : Nat) (rows : List Agenda) (pid : Int)
    (diff : Int) : List Agenda :=
  match fuel with
  | 0 => rows
  | fuel + 1 =>
    let child_ids := (rows.filter (fun x => x.parent_id == some pid)).map (·.id)
    child_ids.foldl
      (fun acc cid =>
        let acc := acc.map (fun a =>
          if a.id == cid then { a with level := a.level + diff } else a)
        update_descendant_levels fuel acc cid diff)
      rows

/-- Fields of `AgendaMoveRequest` (`app/schemas/agenda.py`). -/
structure AgendaMoveRequest where
  new_parent_id : Option Int
  new_order_num : Int
deriving DecidableEq, Repr

/-- Embedding of `AgendaService.move_agenda`: resolve the node, validate the
new parent (existence, not a descendant of the node, same meeting), compute
the new level, shift every descendant level by the difference, then update the
node itself. -/
def move_agenda (s : AgendaState) (agenda_id : Int) (data : AgendaMoveRequest) :
    Except String AgendaState := do
  let a ←
    match get_agenda s agenda_id with
    | none => throw ("Agenda with id " ++ toString agenda_id ++ " not found")
    | some a => pure a
  match data.new_parent_id with
  | none => pure ()
  | some pid =>
    match get_agenda s pid with
    | none => throw ("Agenda with id " ++ toString pid ++ " not found")
    | some new_parent =>
      if is_descendant s.agendas.length s pid agenda_id then
        throw "Cannot move agenda to its own descendant"
      else if new_parent.meeting_id ≠ a.meeting_id then
        throw "Cannot move agenda to a different meeting"
  let new_level ← get_parent_level s data.new_parent_id
  let level_diff := new_level - a.level
  let rows :=
    if level_diff ≠ 0 then
      update_descendant_levels s.agendas.length s.agendas agenda_id level_diff
    else s.agendas
  let rows := rows.map (fun x =>
    if x.id == agenda_id then
      { x with parent_id := data.new_parent_id, level := new_level,
               order_num := data.new_order_num }
    else x)
  pure { s with agendas := rows }

/-- Level-consistency invariant of the spec: every row has level 0 when it has
no parent, and `parent.level + 1` when it has one (parent resolved by id among
the rows). -/
def level_consistent (s : AgendaState) : Bool :=
  s.agendas.all (fun a =>
    match a.parent_id with
    | none => a.level == 0
    | some pid =>
      match s.agendas.find? (fun p => p.id == pid) with
      | none => false
      | some p => a.level == p.level + 1)

/-- Example root agenda row in meeting 1. -/
def rootRowA : Agenda :=
  { id := 1, meeting_id := 1, parent_id := none, level := 0, order_num := 0,
    title := "A", description := none, status := .pending,
    started_at_seconds := none, time_segments := none, deleted_at := none }

/-- Example store holding only `rootRowA`. -/
def stateOneRoot : AgendaState :=
  { meetings := [1], agendas := [rootRowA], nextId := 2 }

/-- Empty store for meeting 1. -/
def stateEmpty : AgendaState :=
  { meetings := [1], agendas := [], nextId := 1 }

/-- Value produced by `json.loads` on an oracle response (Python floats as
`ℚ`, dicts as association lists whose later duplicate key wins). -/
inductive Json where
  | null
  | bool (b : Bool)
  | num (q : ℚ)
  | str (s : String)
  | arr (xs : List Json)
  | obj (fields : List (String × Json))

/-- Test for the JSON null value (Python `is None`). -/
def Json.isNull : Json → Bool
  | .null => true
  | _ => false

/-- Python truthiness of a decoded JSON value. -/
def truthy : Json → Bool
  | .null => false
  | .bool b => b
  | .num q => q != 0
  | .str s => s != ""
  | .arr xs => !xs.isEmpty
  | .obj fs => !fs.isEmpty

/-- Exception classes the segment-analysis loop can raise (uncaught, since the
loop sits outside the `try` block in the source). -/
inductive PyErr where
  | typeError
  | attributeError
deriving DecidableEq, Repr

/-- Python comparison `v >= c` against a float: numbers and booleans compare
numerically, every other operand raises `TypeError`. -/
def pyGe (v : Json) (c : ℚ) : Except PyErr Bool :=
  match v with
  | .num q => .ok (decide (c ≤ q))
  | .bool b => .ok (decide (c ≤ (if b then (1 : ℚ) else 0)))
  | _ => .error .typeError

/-- Python equality `v == n` of a decoded JSON value against a number:
numbers and booleans compare numerically, everything else is unequal. -/
def pyEqNum (v : Json) (n : ℚ) : Bool :=
  match v with
  | .num q => q == n
  | .bool b => (if b then (1 : ℚ) else 0) == n
  | _ => false

/-- Python `dict.get(k)` on a decoded JSON object: the last duplicate key
wins, a missing key gives `none`. -/
def jget (fs : List (String × Json)) (k : String) : Option Json :=
  ((fs.filter (fun e => e.1 == k)).map (·.2)).getLast?

/-- Shape of one raw transcript segment dict.  `text` is read with
`seg.get("text", "")`, so a missing key is modelled as `""`; `start` keeps the
missing-key case (read with default 0); `end` distinguishes a missing key from
an explicit null because `move_segment` reads it with default `start + 1`
while `analyze_segments` reads it with default `None`. -/
inductive EndField where
  | absent
  | null
  | val (q : ℚ)
deriving DecidableEq, Repr

/-- Raw transcript segment as stored in the `segments` JSONB of a transcript
row.  `suggested_agenda_id`/`matched_agenda_id` are read with
`seg.get(...) is not None` tests only, so a missing key and a null value are
both `none`. -/
structure RawSeg where
  text : String
  start : Option ℚ
  endv : EndField
  matched_agenda_id : Option Int
  suggested_agenda_id : Option Int
  suggestion_accepted : Option Bool
deriving DecidableEq, Repr

/-- Transcript row (`app/models/recording.py`): only the fields the analyzer
touches. -/
structure Transcript where
  id : Int
  segments : Option (List RawSeg)
deriving DecidableEq, Repr

/-- In-memory view of a meeting as consumed by `SegmentAnalyzer`. -/
structure MeetingData where
  agendas : List Agenda
  transcripts : List Transcript
deriving DecidableEq, Repr

/-- Containment test of one `time_segments` entry:
`start <= segment_start < end`, a null end meaning plus infinity
(`segment_analyzer.py` _find_matched_agenda). -/
def range_contains (segment_start : ℚ) (ts : TimeSeg) : Bool :=
  decide (ts.start.getD 0 ≤ segment_start) &&
    (match ts.endv with
     | none => true
     | some e => decide (segment_start < e))

/-- Truthiness of the `time_segments` column: null and the empty list are
falsy. -/
def truthy_time_segments (o : Option (List TimeSeg)) : Bool :=
  match o with
  | some (_ :: _) => true
  | _ => false

/-- Embedding of `SegmentAnalyzer._find_matched_agenda`: walk the agendas in
list order; an agenda with truthy `time_segments` matches when one of its
ranges contains the start; otherwise, an agenda with `started_at_seconds`
matches when `segment_start >= started_at_seconds` (the source comments this
fallback as a simplified check with no end time); the first match wins. -/
def find_matched_agenda (segment_start : ℚ) : List Agenda → Option Agenda
  | [] => none
  | a :: rest =>
    if truthy_time_segments a.time_segments then
      if (a.time_segments.getD []).any (range_contains segment_start) then some a
      else find_matched_agenda segment_start rest
    else
      match a.started_at_seconds with
      | some sas =>
        if decide ((sas : ℚ) ≤ segment_start) then some a
        else find_matched_agenda segment_start rest
      | none => find_matched_agenda segment_start rest

/-- Constant `SegmentAnalyzer.MIN_TEXT_LENGTH`. -/
def MIN_TEXT_LENGTH : Nat := 10

/-- Constant `SegmentAnalyzer.MIN_CONFIDENCE`. -/
def MIN_CONFIDENCE : ℚ := 7 / 10

/-- Constant `SegmentAnalyzer.SKIP_PATTERNS` (meta utterances). -/
def SKIP_PATTERNS : List String := ["끝", "다시", "네", "예", "아", "음"]

/-- Python `text.strip()`: drop whitespace characters from both ends. -/
def py_strip (s : String) : String :=
  ⟨((s.data.dropWhile Char.isWhitespace).reverse.dropWhile
      Char.isWhitespace).reverse⟩

/-- Embedding of `SegmentAnalyzer._should_skip_segment`: `len(text.strip())`
below the minimum, or a skip-pattern utterance. -/
def should_skip_segment (text : String) : Bool :=
  let t := py_strip text
  decide (t.length < MIN_TEXT_LENGTH) || SKIP_PATTERNS.contains t

/-- Enumerate with a starting index, as Python `enumerate(xs, n)`. -/
def pyEnum (n : Nat) : List α → List (Nat × α)
  | [] => []
  | x :: xs => (n, x) :: pyEnum (n + 1) xs

/-- Flattened segment dict built at the top of `analyze_segments`:
`global_index` is the running position over all transcripts (transcripts with
a null or empty `segments` list contribute nothing), `start` is
`seg.get("start", 0)` and `endv` is `seg.get("end")`. -/
structure FlatSeg where
  global_index : Nat
  text : String
  start : ℚ
  endv : Option ℚ
  raw : RawSeg
deriving DecidableEq, Repr

/-- Collection of all segments with their global index
(`analyze_segments`, first loop). -/
def all_segments (ts : List Transcript) : List FlatSeg :=
  (pyEnum 0 ((ts.map (fun t => t.segments.getD [])).flatten)).map (fun p =>
    { global_index := p.1, text := p.2.text, start := p.2.start.getD 0,
      endv := match p.2.endv with | .val q => some q | _ => none,
      raw := p.2 })

/-- Segment retained for analysis, with its mapper-resolved current agenda
(`analyze_segments`, second loop). -/
structure AnalSeg where
  base : FlatSeg
  current_agenda_id : Option Int
  current_agenda_title : Option String
deriving DecidableEq, Repr

/-- Active (non-deleted) agendas of the meeting. -/
def active_agendas (m : MeetingData) : List Agenda :=
  m.agendas.filter (fun a => a.deleted_at.isNone)

/-- Filtering loop of `analyze_segments`: drop segments that already carry a
suggestion (unless `force_reanalyze`), drop short or skip-pattern texts, and
resolve the current agenda of the survivors via the start-based mapper. -/
def segments_to_analyze (m : MeetingData) (force_reanalyze : Bool) :
    List AnalSeg :=
  let agendas := active_agendas m
  (all_segments m.transcripts).filterMap (fun s =>
    if !force_reanalyze && s.raw.suggested_agenda_id.isSome then none
    else if should_skip_segment s.text then none
    else
      let matched := find_matched_agenda s.start agendas
      some { base := s, current_agenda_id := matched.map (·.id),
             current_agenda_title := matched.map (·.title) })

/-- Suggestion object built by the analysis loop
(`segment_analyzer.py` SegmentSuggestion).  The oracle-provided fields are
kept as raw JSON values, exactly as the Python constructor receives them. -/
structure Suggestion where
  segment_index : Nat
  segment_text : String
  current_agenda_id : Option Int
  current_agenda_title : Option String
  suggested_agenda_id : Json
  suggested_agenda_title : Option String
  confidence : Json
  reason : Json

/-- Lookup `agenda_map.get(suggested_id)` where `agenda_map = {a.id: a}` over
the active agendas: dict lookup uses Python equality (floats and booleans
match integer keys), the last duplicate id wins, and an unhashable key (list
or dict) raises `TypeError`. -/
def agenda_map_get (agendas : List Agenda) (k : Json) :
    Except PyErr (Option Agenda) :=
  match k with
  | .arr _ => .error .typeError
  | .obj _ => .error .typeError
  | _ => .ok ((agendas.filter (fun a => pyEqNum k (a.id : ℚ))).getLast?)

/-- Processing of one oracle response item (body of the result loop in
`analyze_segments`).  A non-dict item raises `AttributeError` at
`result.get("index")`; a missing or null index, or an index matching no
analyzed segment, is skipped; otherwise the suggestion condition
`not is_matched and suggested_id and confidence >= MIN_CONFIDENCE` is
evaluated with Python short-circuiting and comparison semantics. -/
def process_item (segs : List AnalSeg) (agendas : List Agenda) (item : Json) :
    Except PyErr (Option Suggestion) :=
  match item with
  | .obj fs =>
    let idx := (jget fs "index").getD .null
    if idx.isNull then .ok none
    else
      match segs.find? (fun s => pyEqNum idx (s.base.global_index : ℚ)) with
      | none => .ok none
      | some seg =>
        let is_matched := (jget fs "is_matched_correctly").getD (.bool true)
        let suggested_id := (jget fs "suggested_agenda_id").getD .null
        let confidence := (jget fs "confidence").getD (.num 0)
        let reason := (jget fs "reason").getD (.str "")
        if truthy is_matched then .ok none
        else if !truthy suggested_id then .ok none
        else
          match pyGe confidence MIN_CONFIDENCE with
          | .error e => .error e
          | .ok false => .ok none
          | .ok true =>
            match agenda_map_get agendas suggested_id with
            | .error e => .error e
            | .ok suggested_agenda =>
              .ok (some
                { segment_index := seg.base.global_index,
                  segment_text := seg.base.text,
                  current_agenda_id := seg.current_agenda_id,
                  current_agenda_title := seg.current_agenda_title,
                  suggested_agenda_id := suggested_id,
                  suggested_agenda_title := suggested_agenda.map (·.title),
                  confidence := confidence, reason := reason })
  | _ => .error .attributeError

/-- Iteration of the whole result list: the first raised exception aborts the
loop, otherwise the produced suggestions are collected in order. -/
def process_items (segs : List AnalSeg) (agendas : List Agenda) :
    List Json → Except PyErr (List Suggestion)
  | [] => .ok []
  | item :: rest =>
    match process_item segs agendas item with
    | .error e => .error e
    | .ok o =>
      match process_items segs agendas rest with
      | .error e => .error e
      | .ok tail => .ok (match o with | some sug => sug :: tail | none => tail)

/-- Python `for result in results` on a decoded JSON value: a list yields its
items, a dict its keys, a string its characters; numbers, booleans and null
raise `TypeError`. -/
def iter_elems : Json → Except PyErr (List Json)
  | .arr xs => .ok xs
  | .obj fs => .ok (fs.map (fun e => Json.str e.1))
  | .str s => .ok (s.toList.map (fun c => Json.str c.toString))
  | _ => .error .typeError

/-- Outcome of the oracle call as seen after the `try` block of
`analyze_segments`: either something inside the `try` raised (caught by the
generic handler, message kept), or the call returned text whose `json.loads`
result is given (`none` when it raised `JSONDecodeError`). -/
inductive LLMOutcome where
  | raiseExc (msg : String)
  | response (parsed : Option Json)

/-- Result dict of `analyze_segments`; the optional `error` key models the
degraded responses.  The source serialises each suggestion with `to_dict()`
(display truncation of the text); the suggestion objects are kept here. -/
structure AnalysisRes where
  total_segments : Nat
  analyzed : Nat
  mismatches_found : Nat
  suggestions : List Suggestion
  error : Option String

/-- Observable outcome of one `analyze_segments` call: whether the oracle was
invoked, and the returned dict or the uncaught exception. -/
structure AnalyzeOutput where
  oracle_called : Bool
  result : Except PyErr AnalysisRes

/-- Embedding of `SegmentAnalyzer.analyze_segments`.  The three early returns
(no transcripts, no segments, nothing left after filtering) never reach the
oracle; a raise inside the `try` block degrades to an error string (analyzed
count 0), a `JSONDecodeError` degrades to the fixed Korean parse-failure
message (analyzed count kept); the result loop runs outside the `try` and can
raise. -/
def analyze_segments (m : MeetingData) (force_reanalyze : Bool)
    (oracle : LLMOutcome) : AnalyzeOutput :=
  if m.transcripts.isEmpty then
    { oracle_called := false,
      result := .ok { total_segments := 0, analyzed := 0, mismatches_found := 0,
                      suggestions := [], error := none } }
  else
    let allSegs := all_segments m.transcripts
    if allSegs.isEmpty then
      { oracle_called := false,
        result := .ok { total_segments := 0, analyzed := 0, mismatches_found := 0,
                        suggestions := [], error := none } }
    else
      let segs := segments_to_analyze m force_reanalyze
      if segs.isEmpty then
        { oracle_called := false,
          result := .ok { total_segments := allSegs.length, analyzed := 0,
                          mismatches_found := 0, suggestions := [], error := none } }
      else
        match oracle with
        | .raiseExc msg =>
          { oracle_called := true,
            result := .ok { total_segments := allSegs.length, analyzed := 0,
                            mismatches_found := 0, suggestions := [],
                            error := some msg } }
        | .response none =>
          { oracle_called := true,
            result := .ok { total_segments := allSegs.length,
                            analyzed := segs.length, mismatches_found := 0,
                            suggestions := [],
                            error := some "LLM 응답 파싱 실패" } }
        | .response (some j) =>
          match iter_elems j with
          | .error e => { oracle_called := true, result := .error e }
          | .ok elems =>
            match process_items segs (active_agendas m) elems with
            | .error e => { oracle_called := true, result := .error e }
            | .ok suggs =>
              { oracle_called := true,
                result := .ok { total_segments := allSegs.length,
                                analyzed := segs.length,
                                mismatches_found := suggs.length,
                                suggestions := suggs, error := none } }

/-- Result dict of `move_segment`: the failure shape
`{"success": False, "error": ...}` or the success shape with the echoed
index and target id. -/
inductive MoveSegResult where
  | failure (error : String)
  | success (segment_index : Nat) (moved_to_agenda_id : Int)
deriving DecidableEq, Repr

/-- Search loop at the top of `move_segment`: the segment at flat position
`k` over all transcripts (null or empty `segments` contribute nothing),
returning its transcript position, its position inside that transcript, the
transcript row and the segment. -/
def locate_segment : List Transcript → Nat → Nat →
    Option (Nat × Nat × Transcript × RawSeg)
  | [], _, _ => none
  | t :: ts, k, ti =>
    let segs := t.segments.getD []
    match segs[k]? with
    | some s => some (ti, k, t, s)
    | none => locate_segment ts (k - segs.length) (ti + 1)

/-- In-place mutation of the first list element satisfying a predicate,
matching the Python pattern of mutating the object found by `next(...)`. -/
def update_first : List α → (α → Bool) → (α → α) → List α
  | [], _, _ => []
  | x :: xs, p, f => if p x then f x :: xs else x :: update_first xs p f

/-- Embedding of `SegmentAnalyzer.move_segment`: locate the segment by its
flat index (failure dict when absent), resolve the target agenda among all
meeting agendas by id (failure dict when absent), then set
`matched_agenda_id` and `suggestion_accepted` on the segment, clear
`suggested_agenda_id` only when accepting, and append
`{"start": seg.get("start", 0), "end": seg.get("end", start + 1)}` to the
target time ranges.  Returns the mutated meeting and the result dict. -/
def move_segment (m : MeetingData) (segment_index : Nat)
    (target_agenda_id : Int) (accept_suggestion : Bool) :
    MeetingData × MoveSegResult :=
  match locate_segment m.transcripts segment_index 0 with
  | none => (m, .failure "Segment not found")
  | some (ti, si, t, seg) =>
    let segment_start := seg.start.getD 0
    let segment_end : Option ℚ :=
      match seg.endv with
      | .absent => some (segment_start + 1)
      | .null => none
      | .val q => some q
    match m.agendas.find? (fun a => a.id == target_agenda_id) with
    | none => (m, .failure "Target agenda not found")
    | some _ =>
      let seg' := { seg with
        matched_agenda_id := some target_agenda_id,
        suggestion_accepted := some accept_suggestion,
        suggested_agenda_id :=
          if accept_suggestion then none else seg.suggested_agenda_id }
      let new_range : TimeSeg := { start := some segment_start, endv := segment_end }
      let agendas := update_first m.agendas (fun a => a.id == target_agenda_id)
        (fun a =>
          { a with time_segments := some ((a.time_segments.getD []) ++ [new_range]) })
      let transcripts := m.transcripts.set ti
        { t with segments := some ((t.segments.getD []).set si seg') }
      ({ agendas := agendas, transcripts := transcripts },
       .success segment_index target_agenda_id)

/-- Stable insertion into a sorted list, keeping an earlier-input element
before later elements with an equal key. -/
def insert_by_order (x : Agenda) : List Agenda → List Agenda
  | [] => [x]
  | y :: ys =>
    if x.order_num ≤ y.order_num then x :: y :: ys else y :: insert_by_order x ys

/-- Stable sort by `order_num`, the result of Python
`sort(key=lambda a: a.order_num)` (any stable sort by the same key agrees). -/
def sort_by_order : List Agenda → List Agenda
  | [] => []
  | x :: xs => insert_by_order x (sort_by_order xs)

/-- Children of a parent id, sorted by `order_num`, as both renderers
compute them. -/
def children_sorted (ags : List Agenda) (pid : Int) : List Agenda :=
  sort_by_order (ags.filter (fun a => a.parent_id == some pid))

/-- Root agendas sorted by `order_num`, as both renderers compute them. -/
def roots_sorted (ags : List Agenda) : List Agenda :=
  sort_by_order (ags.filter (fun a => a.parent_id.isNone))

/-- Python dict built from assignments in order: the last assignment to a key
wins. -/
def dict_get (entries : List (Int × String)) (k : Int) : Option String :=
  ((entries.filter (fun e => e.1 == k)).map (·.2)).getLast?

/-- Child and grandchild entries both renderers emit under one root whose
label is `lab`: children (1-based position `i`) as `"{lab}.{i}"` and
grandchildren (1-based position `j` under child `i`) as `"{lab}.{i}.{j}"`. -/
def order_group_children (ags : List Agenda) (lab : String) (p : Agenda) :
    List (Int × String) :=
  ((pyEnum 1 (children_sorted ags p.id)).map (fun ci =>
    (ci.2.id, lab ++ "." ++ toString ci.1) ::
    (pyEnum 1 (children_sorted ags ci.2.id)).map (fun gi =>
      (gi.2.id, lab ++ "." ++ toString ci.1 ++ "." ++ toString gi.1)))).flatten

/-- Dict entries emitted for one root with label `lab`: the root itself and
then its two levels of descendants. -/
def order_group (ags : List Agenda) (lab : String) (p : Agenda) :
    List (Int × String) :=
  (p.id, lab) :: order_group_children ags lab p

/-- Hierarchical order dict of `app/routers/results.py`: roots labelled by
their 1-based enumeration position, children `"{idx}.{i}"`, grandchildren
`"{idx}.{i}.{j}"`. -/
def hierarchical_orders_results (ags : List Agenda) : List (Int × String) :=
  ((pyEnum 1 (roots_sorted ags)).map (fun pi =>
    order_group ags (toString pi.1) pi.2)).flatten

/-- Lookup helper `get_hierarchical_order` of results.py, default label
`"0"`. -/
def get_hierarchical_order (ags : List Agenda) (agenda_id : Int) : String :=
  (dict_get (hierarchical_orders_results ags) agenda_id).getD "0"

/-- Hierarchical order dict of `workers/tasks/llm.py`: roots labelled by the
raw stored `order_num`, children `"{order_num}.{i}"`, grandchildren
`"{order_num}.{i}.{j}"`. -/
def hierarchical_orders_llm (ags : List Agenda) : List (Int × String) :=
  ((roots_sorted ags).map (fun parent =>
    order_group ags (toString parent.order_num) parent)).flatten

/-- Per-node match condition of the start-based mapper: a node with truthy
`time_segments` matches when one range contains the start; a node without
them but with `started_at_seconds` matches when the start is at or past it,
with no upper boundary. -/
def agenda_matches_start (segment_start : ℚ) (a : Agenda) : Bool :=
  if truthy_time_segments a.time_segments then
    (a.time_segments.getD []).any (range_contains segment_start)
  else
    match a.started_at_seconds with
    | some sas => decide ((sas : ℚ) ≤ segment_start)
    | none => false

/-- Agenda carrying only the legacy single timestamp (no ranges). -/
def legacyAgenda : Agenda :=
  { id := 10, meeting_id := 1, parent_id := none, level := 0, order_num := 0,
    title := "Legacy", description := none, status := .pending,
    started_at_seconds := some 0, time_segments := none, deleted_at := none }

/-- Agenda carrying an open-ended time range starting at second 100. -/
def rangedAgenda : Agenda :=
  { id := 11, meeting_id := 1, parent_id := none, level := 0, order_num := 1,
    title := "Ranged", description := none, status := .pending,
    started_at_seconds := none,
    time_segments := some [{ start := some 100, endv := none }],
    deleted_at := none }

/-- Transcript segment carrying a pending suggestion (agenda 5) and an
explicit end time. -/
def plainSeg : RawSeg :=
  { text := "이번 분기 예산을 검토하겠습니다", start := some 30, endv := .val 45,
    matched_agenda_id := none, suggested_agenda_id := some 5,
    suggestion_accepted := none }

/-- Transcript segment whose stored dict has no `end` key. -/
def noEndSeg : RawSeg :=
  { text := "다음 안건으로 넘어가겠습니다", start := some 30, endv := .absent,
    matched_agenda_id := none, suggested_agenda_id := none,
    suggestion_accepted := none }

/-- Move target agenda (id 2) with one existing time range. -/
def targetAgenda : Agenda :=
  { id := 2, meeting_id := 1, parent_id := none, level := 0, order_num := 0,
    title := "Budget", description := none, status := .pending,
    started_at_seconds := none,
    time_segments := some [{ start := some 0, endv := some 10 }],
    deleted_at := none }

/-- Meeting with one transcript holding `plainSeg` (flat index 0) and
`noEndSeg` (flat index 1). -/
def meetingForMove : MeetingData :=
  { agendas := [targetAgenda],
    transcripts := [{ id := 100, segments := some [plainSeg, noEndSeg] }] }

/-- Meeting with no agendas and no transcripts. -/
def emptyMeeting : MeetingData := { agendas := [], transcripts := [] }

/-- The one segment of `meetingForMove` that survives the analysis filter
(`plainSeg` is dropped because it already carries a suggestion): `noEndSeg`
at global index 1, matched to no agenda by the mapper. -/
def analSegNoEnd : AnalSeg :=
  { base := { global_index := 1, text := noEndSeg.text, start := 30,
              endv := none, raw := noEndSeg },
    current_agenda_id := none, current_agenda_title := none }

/-- Fields of a well-typed oracle response item flagging segment 1 as
mismatched with suggested agenda 7 at confidence 1. -/
def oracleItemFields : List (String × Json) :=
  [("index", Json.num 1), ("is_matched_correctly", Json.bool false),
   ("suggested_agenda_id", Json.num 7), ("confidence", Json.num 1)]

/-- Single root agenda whose stored `order_num` is the default 0 that
`get_next_order_num` assigns to the first created root. -/
def soloRoot : Agenda :=
  { id := 20, meeting_id := 1, parent_id := none, level := 0, order_num := 0,
    title := "Only", description := none, status := .pending,
    started_at_seconds := none, time_segments := none, deleted_at := none }

-- ===================================================================
-- Theorems
-- ===================================================================

/-- C5 (counterexample): the claim says the legacy `started_at_seconds`
fallback applies only when NO node has `time_segments`, and bounds a fallback
match by the next chronologically-started node.  In the code the fallback is
tested per node during the same walk: with `legacyAgenda`
(`started_at_seconds = 0`, no ranges) listed before `rangedAgenda` (range
`[100, ∞)`), the segment starting at 150 is owned by `legacyAgenda` even
though `rangedAgenda` has `time_segments` and its range contains 150. -/
theorem find_matched_agenda_fallback_not_global :
    truthy_time_segments rangedAgenda.time_segments = true ∧
    (rangedAgenda.time_segments.getD []).any (range_contains 150) = true ∧
    legacyAgenda.time_segments = none ∧
    find_matched_agenda 150 [legacyAgenda, rangedAgenda] = some legacyAgenda := by
  exact ⟨rfl, by decide, rfl, by decide⟩

/-- C5 (amended): the start-based mapper returns the first agenda in list
order whose own per-node condition holds: a node with truthy `time_segments`
matches if some range contains the start, and otherwise a node with
`started_at_seconds` matches if `segment.start >= started_at_seconds`, with
no upper boundary and regardless of other nodes having `time_segments`. -/
theorem find_matched_agenda_eq_find_first (segment_start : ℚ)
    (ags : List Agenda) :
    find_matched_agenda segment_start ags =
      ags.find? (agenda_matches_start segment_start) := by
  induction ags with
  | nil => rfl
  | cons a rest ih =>
    simp only [find_matched_agenda, List.find?, agenda_matches_start]
    by_cases hts : truthy_time_segments a.time_segments
    · simp only [hts, if_true]
      by_cases hr : (a.time_segments.getD []).any (range_contains segment_start)
      · simp [hr]
      · simp [hr, ih]
    · simp only [hts, if_false]
      cases hsas : a.started_at_seconds with
      | none =>
        simp [Bool.false_eq_true, ih]
      | some sas =>
        by_cases hc : ((sas : ℚ) ≤ segment_start)
        · simp [hc]
        · simp [hc, ih]

/-- C1: the claim says a `move_agenda` call whose `new_parent_id` equals the
moved node id is rejected with an Invalid-class error and the tree is left
unchanged.  The code only rejects strict descendants: `_is_descendant(x, x)`
walks the children of `x` and never finds `x` itself in an acyclic store, so
moving a node under itself is accepted, setting `parent_id` to the node itself
(a self-cycle) and bumping the level.  This theorem evaluates the embedding at
the failing input: a store with a single root agenda (id 1) and the call
`move_agenda(1, new_parent_id=1, new_order_num=0)`. -/
theorem move_agenda_accepts_self_parent :
    move_agenda stateOneRoot 1 { new_parent_id := some 1, new_order_num := 0 } =
      .ok { meetings := [1],
            agendas := [{ rootRowA with parent_id := some 1, level := 1 }],
            nextId := 2 } := by
  rfl

/-- C2: the claim says every state reachable by `create_agenda` and
`move_agenda` operations is level-consistent (level 0 at roots, otherwise
`parent.level + 1`).  Via the missing self-move check (see C1) the reachable
state after `create_agenda(meeting 1, "A")` followed by
`move_agenda(1, new_parent_id=1, new_order_num=0)` has agenda 1 with
`parent_id = 1` and `level = 1`, while its parent (itself) would require
`level = 2`; the invariant is violated on a reachable state. -/
theorem level_consistency_broken_by_self_move :
    (match create_agenda stateEmpty 1
        { title := "A", description := none, parent_id := none } with
     | .ok (s, _) => move_agenda s 1 { new_parent_id := some 1, new_order_num := 0 }
     | .error e => .error e) =
      .ok { meetings := [1],
            agendas := [{ rootRowA with parent_id := some 1, level := 1 }],
            nextId := 2 } ∧
    level_consistent
      { meetings := [1],
        agendas := [{ rootRowA with parent_id := some 1, level := 1 }],
        nextId := 2 } = false := by
  exact ⟨rfl, rfl⟩

/-- Location invariant of the search loop of `move_segment`: a hit at
accumulator `i0` names an absolute transcript position and a valid segment
position inside it. -/
theorem locate_segment_spec :
    ∀ (ts : List Transcript) (k i0 ti si : Nat) (t : Transcript) (seg : RawSeg),
      locate_segment ts k i0 = some (ti, si, t, seg) →
      ∃ d, ti = i0 + d ∧ ts[d]? = some t ∧ (t.segments.getD [])[si]? = some seg := by
  intro ts
  induction ts with
  | nil => intro k i0 ti si t seg h; simp [locate_segment] at h
  | cons t0 rest ih =>
    intro k i0 ti si t seg h
    simp only [locate_segment] at h
    cases hg : (t0.segments.getD [])[k]? with
    | some s =>
      rw [hg] at h
      simp only [Option.some.injEq, Prod.mk.injEq] at h
      obtain ⟨h1, h2, h3, h4⟩ := h
      subst h1; subst h2; subst h3; subst h4
      exact ⟨0, by omega, by simp, hg⟩
    | none =>
      rw [hg] at h
      obtain ⟨d, hd, hts, hseg⟩ :=
        ih (k - (t0.segments.getD []).length) (i0 + 1) ti si t seg h
      exact ⟨d + 1, by omega, by simpa using hts, hseg⟩

/-- Mutating the first element matched by a predicate preserved under the
mutation commutes with `find?`. -/
theorem find?_update_first (l : List α) (p : α → Bool) (f : α → α)
    (hf : ∀ x, p x = true → p (f x) = true) :
    List.find? p (update_first l p f) = (List.find? p l).map f := by
  induction l with
  | nil => rfl
  | cons x xs ih =>
    simp only [update_first]
    by_cases hx : p x = true
    · rw [if_pos hx, List.find?_cons_of_pos _ (hf x hx), List.find?_cons_of_pos _ hx]
      rfl
    · rw [if_neg hx, List.find?_cons_of_neg _ (by simpa using hx),
          List.find?_cons_of_neg _ (by simpa using hx)]
      exact ih

/-- Successful path of `move_segment`, written out as the explicit mutated
meeting state; shared by the claim theorems below. -/
theorem move_segment_success_state
    (m : MeetingData) (idx : Nat) (target : Int) (acc : Bool)
    (ti si : Nat) (t : Transcript) (seg : RawSeg) (tgt : Agenda)
    (hloc : locate_segment m.transcripts idx 0 = some (ti, si, t, seg))
    (htgt : m.agendas.find? (fun a => a.id == target) = some tgt) :
    move_segment m idx target acc =
      (MeetingData.mk
        (update_first m.agendas (fun a => a.id == target) (fun a =>
          { a with time_segments := some ((a.time_segments.getD []) ++
              [TimeSeg.mk (some (seg.start.getD 0))
                (match seg.endv with
                 | .absent => some (seg.start.getD 0 + 1)
                 | .null => none
                 | .val q => some q)]) }))
        (m.transcripts.set ti
          { t with segments := some ((t.segments.getD []).set si
              { seg with matched_agenda_id := some target,
                         suggestion_accepted := some acc,
                         suggested_agenda_id :=
                           if acc then none else seg.suggested_agenda_id }) }),
       .success idx target) := by
  unfold move_segment
  rw [hloc, htgt]

/-- C3: after a successful `move_segment(..., accept_suggestion=True)` the
located segment has `suggested_agenda_id` null together with
`matched_agenda_id` set, and the target agenda has the new
`{start, end}` range appended to its `time_segments`; and whenever the call
returns a failure dict (segment not found, target agenda not found) the
meeting state is returned unchanged, so the two updates hold together or not
at all. -/
theorem move_segment_accept_atomic
    (m : MeetingData) (idx : Nat) (target : Int)
    (ti si : Nat) (t : Transcript) (seg : RawSeg) (e : ℚ) (tgt : Agenda)
    (hloc : locate_segment m.transcripts idx 0 = some (ti, si, t, seg))
    (hend : seg.endv = .val e)
    (htgt : m.agendas.find? (fun a => a.id == target) = some tgt) :
    ((move_segment m idx target true).2 = .success idx target ∧
     ((move_segment m idx target true).1.transcripts[ti]?.bind
         (fun tr => (tr.segments.getD [])[si]?)) =
       some { seg with matched_agenda_id := some target,
                       suggestion_accepted := some true,
                       suggested_agenda_id := none } ∧
     (move_segment m idx target true).1.agendas.find? (fun a => a.id == target) =
       some { tgt with time_segments := some ((tgt.time_segments.getD []) ++
           [{ start := some (seg.start.getD 0), endv := some e }]) }) ∧
    ∀ (m₀ : MeetingData) (k : Nat) (g : Int) (acc : Bool) (err : String),
      (move_segment m₀ k g acc).2 = .failure err →
      (move_segment m₀ k g acc).1 = m₀ := by
  have hss := move_segment_success_state m idx target true ti si t seg tgt hloc htgt
  obtain ⟨d, hd, hts, hseg⟩ := locate_segment_spec m.transcripts idx 0 ti si t seg hloc
  have hd0 : ti = d := by omega
  subst hd0
  have hti : ti < m.transcripts.length := (List.getElem?_eq_some.mp hts).1
  have hsi : si < (t.segments.getD []).length := (List.getElem?_eq_some.mp hseg).1
  refine ⟨⟨?_, ?_, ?_⟩, ?_⟩
  · rw [hss]
  · rw [hss]
    simp only
    rw [List.getElem?_set_self hti]
    simp only [Option.some_bind, Option.getD_some]
    rw [List.getElem?_set_self hsi]
    simp
  · rw [hss]
    simp only
    rw [find?_update_first _ _ _ (fun x hx => by simpa using hx), htgt]
    simp [hend]
  · intro m₀ k g acc err h
    unfold move_segment at h ⊢
    cases hl : locate_segment m₀.transcripts k 0 with
    | none => rfl
    | some q =>
      obtain ⟨ti₀, si₀, t₀, seg₀⟩ := q
      rw [hl] at h
      cases hf : List.find? (fun a => a.id == g) m₀.agendas with
      | none => rfl
      | some a₀ =>
        rw [hf] at h
        simp at h

/-- Witness for C3 at a concrete meeting: transcript with two segments,
moving segment 0 into agenda 2 with acceptance. -/
theorem move_segment_accept_atomic_witness :
    (locate_segment meetingForMove.transcripts 0 0 =
        some (0, 0, Transcript.mk 100 (some [plainSeg, noEndSeg]), plainSeg) ∧
     plainSeg.endv = EndField.val 45 ∧
     meetingForMove.agendas.find? (fun a => a.id == 2) = some targetAgenda) ∧
    (((move_segment meetingForMove 0 2 true).2 = .success 0 2 ∧
      ((move_segment meetingForMove 0 2 true).1.transcripts[0]?.bind
          (fun tr => (tr.segments.getD [])[0]?)) =
        some { plainSeg with matched_agenda_id := some 2,
                             suggestion_accepted := some true,
                             suggested_agenda_id := none } ∧
      (move_segment meetingForMove 0 2 true).1.agendas.find?
          (fun a => a.id == 2) =
        some { targetAgenda with
               time_segments := some ((targetAgenda.time_segments.getD []) ++
                 [{ start := some (plainSeg.start.getD 0), endv := some 45 }]) }) ∧
     ∀ (m₀ : MeetingData) (k : Nat) (g : Int) (acc : Bool) (err : String),
       (move_segment m₀ k g acc).2 = .failure err →
       (move_segment m₀ k g acc).1 = m₀) :=
  ⟨⟨rfl, rfl, rfl⟩,
   move_segment_accept_atomic meetingForMove 0 2 0 0
     (Transcript.mk 100 (some [plainSeg, noEndSeg])) plainSeg 45 targetAgenda
     rfl rfl rfl⟩

/-- C4 (counterexample): the claim says `suggested_agenda_id` is cleared both
when the suggestion is accepted and when it is rejected.  Rejecting
(`accept_suggestion=False`) a segment whose stored `suggested_agenda_id` is 5
succeeds but leaves the suggestion in place: the code clears it only inside
`if accept_suggestion`. -/
theorem move_segment_reject_keeps_suggestion :
    (move_segment meetingForMove 0 2 false).2 = .success 0 2 ∧
    ((move_segment meetingForMove 0 2 false).1.transcripts[0]?.bind
        (fun tr => (tr.segments.getD [])[0]?)) =
      some { plainSeg with matched_agenda_id := some 2,
                           suggestion_accepted := some false } ∧
    plainSeg.suggested_agenda_id = some 5 :=
  ⟨rfl, rfl, rfl⟩

/-- C4 (amended): on every successful `move_segment` the located segment gets
`matched_agenda_id = target` and `suggestion_accepted = accept_suggestion`,
and `suggested_agenda_id` is cleared exactly when `accept_suggestion` is
true; on rejection it is left unchanged. -/
theorem move_segment_suggestion_cleared_iff_accept
    (m : MeetingData) (idx : Nat) (target : Int) (acc : Bool)
    (ti si : Nat) (t : Transcript) (seg : RawSeg) (tgt : Agenda)
    (hloc : locate_segment m.transcripts idx 0 = some (ti, si, t, seg))
    (htgt : m.agendas.find? (fun a => a.id == target) = some tgt) :
    ((move_segment m idx target acc).1.transcripts[ti]?.bind
        (fun tr => (tr.segments.getD [])[si]?)) =
      some { seg with matched_agenda_id := some target,
                      suggestion_accepted := some acc,
                      suggested_agenda_id :=
                        if acc then none else seg.suggested_agenda_id } := by
  have hss := move_segment_success_state m idx target acc ti si t seg tgt hloc htgt
  obtain ⟨d, hd, hts, hseg⟩ := locate_segment_spec m.transcripts idx 0 ti si t seg hloc
  have hd0 : ti = d := by omega
  subst hd0
  have hti : ti < m.transcripts.length := (List.getElem?_eq_some.mp hts).1
  have hsi : si < (t.segments.getD []).length := (List.getElem?_eq_some.mp hseg).1
  rw [hss]
  simp only
  rw [List.getElem?_set_self hti]
  simp only [Option.some_bind, Option.getD_some]
  rw [List.getElem?_set_self hsi]

/-- Witness for the amended C4 at a concrete accepted move: the stored
suggestion (agenda 5) is cleared. -/
theorem move_segment_suggestion_cleared_iff_accept_witness :
    (locate_segment meetingForMove.transcripts 0 0 =
        some (0, 0, Transcript.mk 100 (some [plainSeg, noEndSeg]), plainSeg) ∧
     meetingForMove.agendas.find? (fun a => a.id == 2) = some targetAgenda) ∧
    ((move_segment meetingForMove 0 2 true).1.transcripts[0]?.bind
        (fun tr => (tr.segments.getD [])[0]?)) =
      some { plainSeg with matched_agenda_id := some 2,
                           suggestion_accepted := some true,
                           suggested_agenda_id :=
                             if true then none else plainSeg.suggested_agenda_id } :=
  ⟨⟨rfl, rfl⟩,
   move_segment_suggestion_cleared_iff_accept meetingForMove 0 2 true 0 0
     (Transcript.mk 100 (some [plainSeg, noEndSeg])) plainSeg targetAgenda rfl rfl⟩

/-- C9: when the located segment has no stored `end` key, the range appended
to the target agenda is `{start: seg.get("start", 0), end: start + 1}` (the
end defaults to one second past the start), and the call succeeds. -/
theorem move_segment_missing_end_defaults
    (m : MeetingData) (idx : Nat) (target : Int) (acc : Bool)
    (ti si : Nat) (t : Transcript) (seg : RawSeg) (tgt : Agenda)
    (hloc : locate_segment m.transcripts idx 0 = some (ti, si, t, seg))
    (hend : seg.endv = .absent)
    (htgt : m.agendas.find? (fun a => a.id == target) = some tgt) :
    (move_segment m idx target acc).2 = .success idx target ∧
    (move_segment m idx target acc).1.agendas.find? (fun a => a.id == target) =
      some { tgt with time_segments := some ((tgt.time_segments.getD []) ++
          [{ start := some (seg.start.getD 0),
             endv := some (seg.start.getD 0 + 1) }]) } := by
  have hss := move_segment_success_state m idx target acc ti si t seg tgt hloc htgt
  refine ⟨by rw [hss], ?_⟩
  rw [hss]
  simp only
  rw [find?_update_first _ _ _ (fun x hx => by simpa using hx), htgt]
  simp [hend]

/-- Witness for C9 at a concrete meeting: segment 1 stores no `end` key and
starts at 30, so the appended range is `[30, 30 + 1]`. -/
theorem move_segment_missing_end_defaults_witness :
    (locate_segment meetingForMove.transcripts 1 0 =
        some (0, 1, Transcript.mk 100 (some [plainSeg, noEndSeg]), noEndSeg) ∧
     noEndSeg.endv = EndField.absent ∧
     meetingForMove.agendas.find? (fun a => a.id == 2) = some targetAgenda) ∧
    ((move_segment meetingForMove 1 2 true).2 = .success 1 2 ∧
     (move_segment meetingForMove 1 2 true).1.agendas.find?
         (fun a => a.id == 2) =
       some { targetAgenda with
              time_segments := some ((targetAgenda.time_segments.getD []) ++
                [{ start := some (noEndSeg.start.getD 0),
                   endv := some (noEndSeg.start.getD 0 + 1) }]) }) :=
  ⟨⟨rfl, rfl, rfl⟩,
   move_segment_missing_end_defaults meetingForMove 1 2 true 0 1
     (Transcript.mk 100 (some [plainSeg, noEndSeg])) noEndSeg targetAgenda
     rfl rfl rfl⟩

/-- C10: with no transcripts or no segments, `analyze_segments` returns the
all-zero result without consulting the oracle; and whenever the filter leaves
nothing to analyze it returns `analyzed = 0` with no suggestions, again
without an oracle call. -/
theorem analyze_segments_empty_cases
    (m : MeetingData) (force : Bool) (oracle : LLMOutcome) :
    ((m.transcripts = [] ∨ all_segments m.transcripts = []) →
      analyze_segments m force oracle =
        { oracle_called := false,
          result := .ok { total_segments := 0, analyzed := 0,
                          mismatches_found := 0, suggestions := [],
                          error := none } }) ∧
    (segments_to_analyze m force = [] →
      analyze_segments m force oracle =
        { oracle_called := false,
          result := .ok { total_segments := (all_segments m.transcripts).length,
                          analyzed := 0, mismatches_found := 0,
                          suggestions := [], error := none } }) := by
  constructor
  · intro h
    rcases h with h | h
    · simp [analyze_segments, h]
    · by_cases ht : m.transcripts.isEmpty
      · simp [analyze_segments, ht]
      · simp [analyze_segments, ht, h]
  · intro h
    by_cases ht : m.transcripts.isEmpty
    · have ht' : m.transcripts = [] := List.isEmpty_iff.mp ht
      simp [analyze_segments, ht, ht', all_segments, pyEnum]
    · by_cases ha : (all_segments m.transcripts).isEmpty
      · have ha' : all_segments m.transcripts = [] := List.isEmpty_iff.mp ha
        simp [analyze_segments, ht, ha, ha']
      · simp [analyze_segments, ht, ha, h]

/-- Witness for C10 at the empty meeting: both hypotheses hold and both
degenerate results follow. -/
theorem analyze_segments_empty_cases_witness :
    ((emptyMeeting.transcripts = [] ∨ all_segments emptyMeeting.transcripts = []) ∧
     segments_to_analyze emptyMeeting false = []) ∧
    (analyze_segments emptyMeeting false (.response none) =
       { oracle_called := false,
         result := .ok { total_segments := 0, analyzed := 0,
                         mismatches_found := 0, suggestions := [],
                         error := none } } ∧
     analyze_segments emptyMeeting false (.response none) =
       { oracle_called := false,
         result := .ok { total_segments :=
                           (all_segments emptyMeeting.transcripts).length,
                         analyzed := 0, mismatches_found := 0,
                         suggestions := [], error := none } }) :=
  ⟨⟨Or.inl rfl, rfl⟩,
   (analyze_segments_empty_cases emptyMeeting false (.response none)).1 (Or.inl rfl),
   (analyze_segments_empty_cases emptyMeeting false (.response none)).2 rfl⟩

/-- C7 (counterexample): the claim says every oracle response that is not the
expected JSON structure degrades to an empty-suggestions result with an error
string instead of raising.  A response that parses as a JSON object (not an
array) slips past the `try` block — `json.loads` succeeds — and the result
loop then calls `.get` on a string key, raising an uncaught
`AttributeError`. -/
theorem analyze_segments_raises_on_object_response :
    analyze_segments meetingForMove false
        (.response (some (.obj [("index", Json.num 0)]))) =
      { oracle_called := true, result := .error .attributeError } := by
  rfl

/-- C7 (amended): for an oracle call that raises inside the `try` block and
for a response whose text fails `json.loads`, `analyze_segments` does not
raise and returns zero suggestions, `mismatches_found = 0` and an error
string (the fixed non-empty parse-failure message for a decode error; the
exception text, possibly empty, for a call failure); a response that decodes
to a non-list value is processed outside the `try` block and can raise. -/
theorem analyze_segments_degrades_on_failure
    (m : MeetingData) (force : Bool) (msg : String)
    (h : segments_to_analyze m force ≠ []) :
    analyze_segments m force (.raiseExc msg) =
      { oracle_called := true,
        result := .ok { total_segments := (all_segments m.transcripts).length,
                        analyzed := 0, mismatches_found := 0,
                        suggestions := [], error := some msg } } ∧
    analyze_segments m force (.response none) =
      { oracle_called := true,
        result := .ok { total_segments := (all_segments m.transcripts).length,
                        analyzed := (segments_to_analyze m force).length,
                        mismatches_found := 0, suggestions := [],
                        error := some "LLM 응답 파싱 실패" } } ∧
    "LLM 응답 파싱 실패" ≠ "" := by
  have ha : all_segments m.transcripts ≠ [] := by
    intro he
    exact h (by simp [segments_to_analyze, he])
  have ht : m.transcripts ≠ [] := by
    intro he
    exact ha (by rw [he]; rfl)
  have ht' : m.transcripts.isEmpty = false := by simp [List.isEmpty_iff, ht]
  have ha' : (all_segments m.transcripts).isEmpty = false := by
    simp [List.isEmpty_iff, ha]
  have h' : (segments_to_analyze m force).isEmpty = false := by
    simp [List.isEmpty_iff, h]
  refine ⟨?_, ?_, by decide⟩
  · simp [analyze_segments, ht', ha', h']
  · simp [analyze_segments, ht', ha', h']

/-- Witness for the amended C7 at a concrete meeting with one analyzable
segment. -/
theorem analyze_segments_degrades_on_failure_witness :
    segments_to_analyze meetingForMove false ≠ [] ∧
    (analyze_segments meetingForMove false (.raiseExc "connection reset") =
       { oracle_called := true,
         result := .ok { total_segments :=
                           (all_segments meetingForMove.transcripts).length,
                         analyzed := 0, mismatches_found := 0,
                         suggestions := [], error := some "connection reset" } } ∧
     analyze_segments meetingForMove false (.response none) =
       { oracle_called := true,
         result := .ok { total_segments :=
                           (all_segments meetingForMove.transcripts).length,
                         analyzed :=
                           (segments_to_analyze meetingForMove false).length,
                         mismatches_found := 0, suggestions := [],
                         error := some "LLM 응답 파싱 실패" } } ∧
     "LLM 응답 파싱 실패" ≠ "") :=
  ⟨by decide,
   analyze_segments_degrades_on_failure meetingForMove false "connection reset"
     (by decide)⟩

/-- C6 (counterexample): the claim says a suggestion is recorded exactly when
`is_matched_correctly` is false, `suggested_agenda_id` is non-null and
`confidence >= 0.7`.  The code tests Python truthiness of
`suggested_agenda_id`, so the non-null id `0` (which the oracle may return;
ids outside the candidate list are otherwise kept) is dropped: with
`is_matched_correctly = false`, `suggested_agenda_id = 0` and
`confidence = 1 >= 0.7 = MIN_CONFIDENCE` no suggestion is recorded. -/
theorem analyze_segments_drops_zero_id_suggestion :
    analyze_segments meetingForMove false
        (.response (some (.arr [Json.obj
          [("index", Json.num 1), ("is_matched_correctly", Json.bool false),
           ("suggested_agenda_id", Json.num 0), ("confidence", Json.num 1)]]))) =
      { oracle_called := true,
        result := .ok { total_segments := 2, analyzed := 1,
                        mismatches_found := 0, suggestions := [],
                        error := none } } ∧
    Json.num 0 ≠ Json.null ∧ MIN_CONFIDENCE ≤ 1 :=
  ⟨by rfl, fun h => Json.noConfusion h, by norm_num [MIN_CONFIDENCE]⟩

/-- C6 (amended): for an oracle response item (a dict) whose index locates an
analyzed segment and whose fields carry the documented types, a suggestion is
recorded if and only if `is_matched_correctly` is false, the returned
`suggested_agenda_id` is truthy — non-null AND nonzero — and
`confidence >= MIN_CONFIDENCE = 0.7`; in particular nothing is recorded below
the threshold. -/
theorem process_item_records_iff
    (segs : List AnalSeg) (agendas : List Agenda) (fs : List (String × Json))
    (seg : AnalSeg) (b : Bool) (sq : Option ℚ) (c : ℚ)
    (hfind : segs.find? (fun s =>
        pyEqNum ((jget fs "index").getD .null)
          ((s.base.global_index : ℚ))) = some seg)
    (hmatched : (jget fs "is_matched_correctly").getD (.bool true) = .bool b)
    (hsug : (jget fs "suggested_agenda_id").getD .null =
        (match sq with | none => Json.null | some q => Json.num q))
    (hconf : (jget fs "confidence").getD (.num 0) = .num c) :
    (∃ out, process_item segs agendas (.obj fs) = .ok (some out)) ↔
      (b = false ∧ ∃ q, sq = some q ∧ q ≠ 0 ∧ MIN_CONFIDENCE ≤ c) := by
  have hp := List.find?_some hfind
  simp only [process_item]
  rcases hv : (jget fs "index").getD .null with _ | bb | qv | sv | av | ov
  · rw [hv] at hp; simp [pyEqNum] at hp
  case bool =>
    rw [hv] at hfind
    rw [hfind, hmatched, hsug, hconf]
    cases b with
    | true => simp [truthy, Json.isNull]
    | false =>
      cases sq with
      | none => simp [truthy, Json.isNull]
      | some q =>
        by_cases hq : q = 0
        · simp [truthy, Json.isNull, hq]
        · by_cases hc : MIN_CONFIDENCE ≤ c
          · simp [truthy, Json.isNull, hq, pyGe, hc, agenda_map_get]
          · simp [truthy, Json.isNull, hq, pyGe, hc]
  case num =>
    rw [hv] at hfind
    rw [hfind, hmatched, hsug, hconf]
    cases b with
    | true => simp [truthy, Json.isNull]
    | false =>
      cases sq with
      | none => simp [truthy, Json.isNull]
      | some q =>
        by_cases hq : q = 0
        · simp [truthy, Json.isNull, hq]
        · by_cases hc : MIN_CONFIDENCE ≤ c
          · simp [truthy, Json.isNull, hq, pyGe, hc, agenda_map_get]
          · simp [truthy, Json.isNull, hq, pyGe, hc]
  · rw [hv] at hp; simp [pyEqNum] at hp
  · rw [hv] at hp; simp [pyEqNum] at hp
  · rw [hv] at hp; simp [pyEqNum] at hp

/-- Witness for the amended C6: a well-typed oracle item (index 1, not
matched, suggested agenda 7, confidence 1) against the concrete meeting
produces a suggestion. -/
theorem process_item_records_iff_witness :
    ((segments_to_analyze meetingForMove false).find? (fun s =>
        pyEqNum ((jget oracleItemFields "index").getD .null)
          ((s.base.global_index : ℚ))) = some analSegNoEnd ∧
     (jget oracleItemFields "is_matched_correctly").getD (.bool true) =
       Json.bool false ∧
     (jget oracleItemFields "suggested_agenda_id").getD .null = Json.num 7 ∧
     (jget oracleItemFields "confidence").getD (.num 0) = Json.num 1) ∧
    (∃ out, process_item (segments_to_analyze meetingForMove false)
        (active_agendas meetingForMove) (.obj oracleItemFields) =
      .ok (some out)) :=
  ⟨⟨rfl, rfl, rfl, rfl⟩,
   (process_item_records_iff (segments_to_analyze meetingForMove false)
       (active_agendas meetingForMove) oracleItemFields analSegNoEnd false
       (some 7) 1 rfl rfl rfl rfl).mpr
     ⟨rfl, 7, rfl, by norm_num, by norm_num [MIN_CONFIDENCE]⟩⟩

/-- C8 (counterexample): the claim says every call site labels a root by its
1-based rank among roots sorted by `order_num`.  For a meeting whose only
root carries the stored `order_num` 0 (the value `create_agenda` gives the
first root), the results.py renderer yields `"1"` but the llm.py renderer
yields `str(order_num) = "0"`: the single convention of the claim is not
applied at the llm.py call site. -/
theorem hierarchical_order_conventions_differ :
    get_hierarchical_order [soloRoot] 20 = "1" ∧
    dict_get (hierarchical_orders_llm [soloRoot]) 20 = some "0" ∧
    soloRoot.order_num = 0 ∧ ("0" : String) ≠ "1" :=
  ⟨rfl, rfl, rfl, by decide⟩

/-- Entries of a Python dict are looked up past a head entry whose key
differs. -/
theorem dict_get_cons_ne (e : Int × String) (l : List (Int × String)) (k : Int)
    (h : e.1 ≠ k) : dict_get (e :: l) k = dict_get l k := by
  simp [dict_get, List.filter_cons, h]

/-- Head entry wins when no later entry reuses its key. -/
theorem dict_get_cons_self (k : Int) (v : String) (l : List (Int × String))
    (h : ∀ e ∈ l, e.1 ≠ k) : dict_get ((k, v) :: l) k = some v := by
  have hl : l.filter (fun e => e.1 == k) = [] := by
    rw [List.filter_eq_nil_iff]
    intro e he
    simpa using h e he
  simp [dict_get, List.filter_cons, hl]

/-- Lookup skips a right part holding no entry with the key. -/
theorem dict_get_append_keyless_right (l₁ l₂ : List (Int × String)) (k : Int)
    (h : ∀ e ∈ l₂, e.1 ≠ k) : dict_get (l₁ ++ l₂) k = dict_get l₁ k := by
  have hl : l₂.filter (fun e => e.1 == k) = [] := by
    rw [List.filter_eq_nil_iff]
    intro e he
    simpa using h e he
  simp [dict_get, List.filter_append, hl]

/-- Lookup skips a left part holding no entry with the key. -/
theorem dict_get_append_keyless_left (l₁ l₂ : List (Int × String)) (k : Int)
    (h : ∀ e ∈ l₁, e.1 ≠ k) : dict_get (l₁ ++ l₂) k = dict_get l₂ k := by
  have hl : l₁.filter (fun e => e.1 == k) = [] := by
    rw [List.filter_eq_nil_iff]
    intro e he
    simpa using h e he
  simp [dict_get, List.filter_append, hl]

/-- Members of an enumeration come from the underlying list. -/
theorem pyEnum_mem : ∀ {n : Nat} {l : List α} {pr : Nat × α},
    pr ∈ pyEnum n l → pr.2 ∈ l := by
  intro n l
  induction l generalizing n with
  | nil => intro pr h; simp [pyEnum] at h
  | cons x xs ih =>
    intro pr h
    rcases List.mem_cons.mp h with rfl | h
    · exact List.mem_cons_self x xs
    · exact List.mem_cons_of_mem x (ih h)

/-- Stable insertion permutes to a cons. -/
theorem insert_by_order_perm (a : Agenda) (l : List Agenda) :
    (insert_by_order a l).Perm (a :: l) := by
  induction l with
  | nil => exact List.Perm.refl _
  | cons y ys ih =>
    simp only [insert_by_order]
    by_cases h : a.order_num ≤ y.order_num
    · rw [if_pos h]
    · rw [if_neg h]
      exact (ih.cons y).trans (List.Perm.swap a y ys)

/-- The stable sort is a permutation of its input. -/
theorem sort_by_order_perm (l : List Agenda) : (sort_by_order l).Perm l := by
  induction l with
  | nil => exact List.Perm.refl _
  | cons x xs ih =>
    exact (insert_by_order_perm x (sort_by_order xs)).trans (ih.cons x)

/-- Sorted children are rows of the store with the right parent. -/
theorem mem_children_sorted {x : Agenda} {ags : List Agenda} {pid : Int}
    (h : x ∈ children_sorted ags pid) : x ∈ ags ∧ x.parent_id = some pid := by
  have hx := (sort_by_order_perm _).mem_iff.mp h
  have := List.mem_filter.mp hx
  exact ⟨this.1, by simpa using this.2⟩

/-- Sorted roots are rows of the store without a parent. -/
theorem mem_roots_sorted {x : Agenda} {ags : List Agenda}
    (h : x ∈ roots_sorted ags) : x ∈ ags ∧ x.parent_id = none := by
  have hx := (sort_by_order_perm _).mem_iff.mp h
  have := List.mem_filter.mp hx
  exact ⟨this.1, by simpa [Option.isNone_iff_eq_none] using this.2⟩

/-- Every child or grandchild entry of a group is keyed by the id of a store
row that has a parent. -/
theorem order_group_children_key {ags : List Agenda} {lab : String}
    {p : Agenda} {e : Int × String} (h : e ∈ order_group_children ags lab p) :
    ∃ c, c ∈ ags ∧ c.parent_id ≠ none ∧ e.1 = c.id := by
  simp only [order_group_children, List.mem_flatten, List.mem_map] at h
  obtain ⟨inner, ⟨ci, hci, rfl⟩, he⟩ := h
  rcases List.mem_cons.mp he with rfl | he
  · have hc := mem_children_sorted (pyEnum_mem hci)
    exact ⟨ci.2, hc.1, by simp [hc.2], rfl⟩
  · simp only [List.mem_map] at he
    obtain ⟨gi, hgi, rfl⟩ := he
    have hc := mem_children_sorted (pyEnum_mem hgi)
    exact ⟨gi.2, hc.1, by simp [hc.2], rfl⟩

/-- Key freshness for a whole group. -/
theorem order_group_keys_ne (ags : List Agenda) (lab : String) (p : Agenda)
    (k : Int) (hhead : p.id ≠ k)
    (hchild : ∀ c ∈ ags, c.parent_id ≠ none → c.id ≠ k) :
    ∀ e ∈ order_group ags lab p, e.1 ≠ k := by
  intro e he
  rcases List.mem_cons.mp he with rfl | he
  · simpa using hhead
  · obtain ⟨c, hc, hcp, hck⟩ := order_group_children_key he
    rw [hck]
    exact hchild c hc hcp

/-- Lookup of a root inside the results.py dict: starting the enumeration at
`n`, the root at position `i` resolves to the label `toString (n + i)`,
provided no store row with a parent shares its id and no other root shares
its id. -/
theorem groups_lookup_results (ags : List Agenda) :
    ∀ (roots : List Agenda) (n i : Nat) (hi : i < roots.length),
      (∀ c ∈ ags, c.parent_id ≠ none → c.id ≠ (roots.get ⟨i, hi⟩).id) →
      (∀ (j : Fin roots.length), (j : Nat) ≠ i →
        (roots.get j).id ≠ (roots.get ⟨i, hi⟩).id) →
      dict_get (((pyEnum n roots).map (fun pi =>
          order_group ags (toString pi.1) pi.2)).flatten)
        ((roots.get ⟨i, hi⟩).id) = some (toString (n + i)) := by
  intro roots
  induction roots with
  | nil =>
    intro n i hi
    exact absurd hi (Nat.not_lt_zero i)
  | cons p rest ih =>
    intro n i hi hchild hothers
    have hstruct : ((pyEnum n (p :: rest)).map (fun pi =>
        order_group ags (toString pi.1) pi.2)).flatten =
        order_group ags (toString n) p ++
          ((pyEnum (n + 1) rest).map (fun pi =>
            order_group ags (toString pi.1) pi.2)).flatten := rfl
    rw [hstruct]
    cases i with
    | zero =>
      have htgt : (p :: rest).get ⟨0, hi⟩ = p := rfl
      rw [htgt] at hchild hothers ⊢
      have hrest : ∀ e ∈ ((pyEnum (n + 1) rest).map (fun pi =>
          order_group ags (toString pi.1) pi.2)).flatten, e.1 ≠ p.id := by
        intro e he
        simp only [List.mem_flatten, List.mem_map] at he
        obtain ⟨inner, ⟨pi, hpi, rfl⟩, he⟩ := he
        refine order_group_keys_ne ags _ pi.2 p.id ?_ hchild e he
        have hq : pi.2 ∈ rest := pyEnum_mem hpi
        obtain ⟨jf, hv⟩ := List.get_of_mem hq
        have hne := hothers ⟨jf.1 + 1, Nat.succ_lt_succ jf.2⟩ (Nat.succ_ne_zero jf.1)
        rw [show (p :: rest).get ⟨jf.1 + 1, Nat.succ_lt_succ jf.2⟩ =
              rest.get jf from rfl, hv] at hne
        exact hne
      rw [dict_get_append_keyless_right _ _ _ hrest]
      have hkids : ∀ e ∈ order_group_children ags (toString n) p, e.1 ≠ p.id := by
        intro e he
        obtain ⟨c, hc, hcp, hck⟩ := order_group_children_key he
        rw [hck]
        exact hchild c hc hcp
      rw [show order_group ags (toString n) p =
            (p.id, toString n) :: order_group_children ags (toString n) p from rfl]
      rw [dict_get_cons_self _ _ _ hkids, Nat.add_zero]
    | succ j =>
      have hj : j < rest.length := Nat.lt_of_succ_lt_succ hi
      have htgt : (p :: rest).get ⟨j + 1, hi⟩ = rest.get ⟨j, hj⟩ := rfl
      rw [htgt] at hchild hothers ⊢
      have hhead : p.id ≠ (rest.get ⟨j, hj⟩).id := by
        have h0 := hothers ⟨0, Nat.succ_pos _⟩ (show (0 : Nat) ≠ j + 1 from by omega)
        simpa using h0
      have hgrp := order_group_keys_ne ags (toString n) p
        (rest.get ⟨j, hj⟩).id hhead hchild
      rw [dict_get_append_keyless_left _ _ _ hgrp]
      have hothers' : ∀ (j' : Fin rest.length), (j' : Nat) ≠ j →
          (rest.get j').id ≠ (rest.get ⟨j, hj⟩).id := by
        intro j' hne
        have := hothers ⟨j'.1 + 1, Nat.succ_lt_succ j'.2⟩ (show j'.1 + 1 ≠ j + 1 from by omega)
        simpa using this
      rw [show n + (j + 1) = (n + 1) + j from by omega]
      exact ih (n + 1) j hj hchild hothers'

/-- Lookup of a root inside the llm.py dict: the root at position `i`
resolves to the string of its stored `order_num`, under the same
freshness conditions. -/
theorem groups_lookup_llm (ags : List Agenda) :
    ∀ (roots : List Agenda) (i : Nat) (hi : i < roots.length),
      (∀ c ∈ ags, c.parent_id ≠ none → c.id ≠ (roots.get ⟨i, hi⟩).id) →
      (∀ (j : Fin roots.length), (j : Nat) ≠ i →
        (roots.get j).id ≠ (roots.get ⟨i, hi⟩).id) →
      dict_get ((roots.map (fun q =>
          order_group ags (toString q.order_num) q)).flatten)
        ((roots.get ⟨i, hi⟩).id) =
        some (toString ((roots.get ⟨i, hi⟩).order_num)) := by
  intro roots
  induction roots with
  | nil =>
    intro i hi
    exact absurd hi (Nat.not_lt_zero i)
  | cons p rest ih =>
    intro i hi hchild hothers
    have hstruct : ((p :: rest).map (fun q =>
        order_group ags (toString q.order_num) q)).flatten =
        order_group ags (toString p.order_num) p ++
          (rest.map (fun q =>
            order_group ags (toString q.order_num) q)).flatten := rfl
    rw [hstruct]
    cases i with
    | zero =>
      have htgt : (p :: rest).get ⟨0, hi⟩ = p := rfl
      rw [htgt] at hchild hothers ⊢
      have hrest : ∀ e ∈ (rest.map (fun q =>
          order_group ags (toString q.order_num) q)).flatten, e.1 ≠ p.id := by
        intro e he
        simp only [List.mem_flatten, List.mem_map] at he
        obtain ⟨inner, ⟨q, hq, rfl⟩, he⟩ := he
        refine order_group_keys_ne ags _ q p.id ?_ hchild e he
        obtain ⟨jf, hv⟩ := List.get_of_mem hq
        have hne := hothers ⟨jf.1 + 1, Nat.succ_lt_succ jf.2⟩ (Nat.succ_ne_zero jf.1)
        rw [show (p :: rest).get ⟨jf.1 + 1, Nat.succ_lt_succ jf.2⟩ =
              rest.get jf from rfl, hv] at hne
        exact hne
      rw [dict_get_append_keyless_right _ _ _ hrest]
      have hkids : ∀ e ∈ order_group_children ags (toString p.order_num) p,
          e.1 ≠ p.id := by
        intro e he
        obtain ⟨c, hc, hcp, hck⟩ := order_group_children_key he
        rw [hck]
        exact hchild c hc hcp
      rw [show order_group ags (toString p.order_num) p =
            (p.id, toString p.order_num) ::
              order_group_children ags (toString p.order_num) p from rfl]
      rw [dict_get_cons_self _ _ _ hkids]
    | succ j =>
      have hj : j < rest.length := Nat.lt_of_succ_lt_succ hi
      have htgt : (p :: rest).get ⟨j + 1, hi⟩ = rest.get ⟨j, hj⟩ := rfl
      rw [htgt] at hchild hothers ⊢
      have hhead : p.id ≠ (rest.get ⟨j, hj⟩).id := by
        have h0 := hothers ⟨0, Nat.succ_pos _⟩ (show (0 : Nat) ≠ j + 1 from by omega)
        simpa using h0
      have hgrp := order_group_keys_ne ags (toString p.order_num) p
        (rest.get ⟨j, hj⟩).id hhead hchild
      rw [dict_get_append_keyless_left _ _ _ hgrp]
      have hothers' : ∀ (j' : Fin rest.length), (j' : Nat) ≠ j →
          (rest.get j').id ≠ (rest.get ⟨j, hj⟩).id := by
        intro j' hne
        have := hothers ⟨j'.1 + 1, Nat.succ_lt_succ j'.2⟩ (show j'.1 + 1 ≠ j + 1 from by omega)
        simpa using this
      exact ih j hj hchild hothers'

/-- C8 (amended): when agenda ids are distinct, the results.py renderer
labels the root at position `i` (among roots sorted by `order_num`) with the
1-based rank `toString (1 + i)`, while the llm.py renderer labels the same
root with the raw stored `toString order_num`: the two call sites follow two
different conventions, and only results.py matches the 1-based-rank
convention named by the claim. -/
theorem hierarchical_root_label_conventions (ags : List Agenda)
    (hids : (ags.map (·.id)).Nodup) (i : Nat)
    (hi : i < (roots_sorted ags).length) :
    dict_get (hierarchical_orders_results ags)
        (((roots_sorted ags).get ⟨i, hi⟩).id) = some (toString (1 + i)) ∧
    dict_get (hierarchical_orders_llm ags)
        (((roots_sorted ags).get ⟨i, hi⟩).id) =
      some (toString (((roots_sorted ags).get ⟨i, hi⟩).order_num)) := by
  have hrmem : (roots_sorted ags).get ⟨i, hi⟩ ∈ roots_sorted ags :=
    List.get_mem _ _ _
  have hroot := mem_roots_sorted hrmem
  have hchild : ∀ c ∈ ags, c.parent_id ≠ none →
      c.id ≠ ((roots_sorted ags).get ⟨i, hi⟩).id := by
    intro c hc hcp hne
    have hccr := List.inj_on_of_nodup_map hids hc hroot.1 hne
    rw [hccr] at hcp
    exact hcp hroot.2
  have hnd : ((roots_sorted ags).map (·.id)).Nodup := by
    have h1 : ((ags.filter (fun a => a.parent_id.isNone)).map (·.id)).Nodup :=
      hids.sublist ((List.filter_sublist _).map _)
    exact (List.Perm.nodup_iff ((sort_by_order_perm _).map _)).mpr h1
  have hothers : ∀ (j : Fin (roots_sorted ags).length), (j : Nat) ≠ i →
      ((roots_sorted ags).get j).id ≠ ((roots_sorted ags).get ⟨i, hi⟩).id := by
    intro j hne heq
    have hvals : (roots_sorted ags).get j = (roots_sorted ags).get ⟨i, hi⟩ :=
      List.inj_on_of_nodup_map hnd (List.get_mem _ _ _) hrmem heq
    have hje : j = ⟨i, hi⟩ := (List.Nodup.get_inj_iff hnd.of_map).mp hvals
    exact hne (congrArg Fin.val hje)
  exact ⟨groups_lookup_results ags (roots_sorted ags) 1 i hi hchild hothers,
         groups_lookup_llm ags (roots_sorted ags) i hi hchild hothers⟩

/-- Witness for the amended C8: one root with stored order 0 gets results.py
label "1" (its 1-based rank) and llm.py label "0" (its raw order). -/
theorem hierarchical_root_label_conventions_witness :
    (([soloRoot].map (·.id)).Nodup ∧ 0 < (roots_sorted [soloRoot]).length) ∧
    (dict_get (hierarchical_orders_results [soloRoot]) soloRoot.id =
        some (toString (1 + 0)) ∧
     dict_get (hierarchical_orders_llm [soloRoot]) soloRoot.id =
        some (toString soloRoot.order_num)) :=
  ⟨⟨by decide, by decide⟩,
   hierarchical_root_label_conventions [soloRoot] (by decide) 0 (by decide)⟩
